import Mathlib

/-!
Shallow embedding of the tourist-scheduling engine from
`src/tourist_scheduling_system/src/agents/tools.py`.

Timestamps (`datetime`) are modelled as integers (seconds on a total
order); monetary amounts (Python `float`) as rationals, which preserves
all order comparisons the engine performs.  Python's `datetime.max`
sort sentinel is modelled by `Option Int` with `none` as the top
element.  The record types mirror `src/core/models.py` (pydantic
models); their field shapes are fixed by their uses in `tools.py`.
-/

namespace TouristScheduling

/-- Time window value type (`Window` in `src/core/models.py`); the
Python field `end` is rendered `stop` because `end` is a Lean keyword. -/
structure Window where
  start : Int
  stop : Int
deriving DecidableEq

/-- `TouristRequest` record. -/
structure TouristRequest where
  tourist_id : String
  availability : List Window
  preferences : List String
  budget : ℚ
deriving DecidableEq

/-- `GuideOffer` record. -/
structure GuideOffer where
  guide_id : String
  categories : List String
  available_window : Window
  hourly_rate : ℚ
  max_group_size : Int
deriving DecidableEq

/-- `Assignment` record produced by the engine. -/
structure Assignment where
  tourist_id : String
  guide_id : String
  time_window : Window
  categories : List String
  total_cost : ℚ
deriving DecidableEq

/-- `SchedulerState`: the two registries plus the assignment ledger. -/
structure SchedulerState where
  tourist_requests : List TouristRequest := []
  guide_offers : List GuideOffer := []
  assignments : List Assignment := []
deriving DecidableEq

/-! ### The matching engine (`_build_schedule`) -/

/-- Preference score: `sum(1 for cat in tourist.preferences if cat in
guide.categories)` (tools.py lines 539-541). -/
def prefScore (preferences categories : List String) : Int :=
  ((preferences.filter (fun cat => categories.contains cat)).length : Int)

/-- The overlap scan of tools.py lines 524-533: walk the tourist's
availability windows in order and return the first whose intersection
with the guide window (max of starts to min of ends) is nonempty. -/
def overlapWindow (availability : List Window) (gw : Window) : Option Window :=
  match availability with
  | [] => none
  | tw :: rest =>
    let os := max tw.start gw.start
    let oe := min tw.stop gw.stop
    if os < oe then some ⟨os, oe⟩ else overlapWindow rest gw

/-- Inner guide scan of tools.py lines 510-546: running best guide /
overlap / score, updated only on a strictly greater score. -/
def findBestAux (t : TouristRequest) (cap : String → Int) :
    List GuideOffer → Option (GuideOffer × Window) → Int → Option (GuideOffer × Window)
  | [], best, _ => best
  | g :: gs, best, bestScore =>
    if cap g.guide_id ≤ 0 then
      findBestAux t cap gs best bestScore
    else if t.budget < g.hourly_rate then
      findBestAux t cap gs best bestScore
    else
      match overlapWindow t.availability g.available_window with
      | none => findBestAux t cap gs best bestScore
      | some ov =>
        let score := prefScore t.preferences g.categories
        if bestScore < score then findBestAux t cap gs (some (g, ov)) score
        else findBestAux t cap gs best bestScore

/-- The guide scan started with `best_guide = None`, `best_score = -1`. -/
def findBest (t : TouristRequest) (cap : String → Int) (gs : List GuideOffer) :
    Option (GuideOffer × Window) :=
  findBestAux t cap gs none (-1)

/-- Assignment construction of tools.py lines 549-559:
`total_cost = hourly_rate * duration_hours`, with the duration of the
overlap converted to (fractional) hours. -/
def mkAssignment (t : TouristRequest) (g : GuideOffer) (ov : Window) : Assignment :=
  { tourist_id := t.tourist_id
    guide_id := g.guide_id
    time_window := ov
    categories := g.categories
    total_cost := g.hourly_rate * (((ov.stop - ov.start : Int) : ℚ) / 3600) }

/-- Main loop of tools.py lines 506-561 over the sorted tourists,
threading the per-guide remaining-capacity map. -/
def buildLoop (gs : List GuideOffer) :
    List TouristRequest → (String → Int) → List Assignment
  | [], _ => []
  | t :: ts, cap =>
    if t.availability = [] then buildLoop gs ts cap
    else
      match findBest t cap gs with
      | none => buildLoop gs ts cap
      | some (g, ov) =>
        mkAssignment t g ov ::
          buildLoop gs ts (fun gid => if gid = g.guide_id then cap gid - 1 else cap gid)

/-- One dict-comprehension step: bind `g.guide_id` to `g.max_group_size`,
overwriting any earlier binding. -/
def capStep (m : String → Int) (g : GuideOffer) : String → Int :=
  fun gid => if gid = g.guide_id then g.max_group_size else m gid

/-- The capacity dict `{g.guide_id: g.max_group_size for g in guide_offers}`
(tools.py line 498); later entries overwrite earlier ones. -/
def initCap (gs : List GuideOffer) : String → Int :=
  gs.foldl capStep (fun _ => 0)

/-- Sort key of tools.py lines 501-504:
`t.availability[0].start if t.availability else datetime.max`;
`none` stands for `datetime.max`, above every representable time. -/
def sortKey (t : TouristRequest) : Option Int :=
  match t.availability with
  | [] => none
  | w :: _ => some w.start

/-- Order on sort keys with `none` as the top element. -/
def keyLEb : Option Int → Option Int → Bool
  | _, none => true
  | none, some _ => false
  | some a, some b => a ≤ b

/-- Comparison relation used to sort the tourists. -/
def tourLE (a b : TouristRequest) : Prop :=
  keyLEb (sortKey a) (sortKey b) = true

instance : DecidableRel tourLE :=
  fun a b => inferInstanceAs (Decidable (_ = true))

instance : IsTotal TouristRequest tourLE := by
  constructor
  intro a b
  unfold tourLE keyLEb
  cases sortKey a <;> cases sortKey b <;> simp <;> omega

instance : IsTrans TouristRequest tourLE := by
  constructor
  intro a b c
  unfold tourLE keyLEb
  cases sortKey a <;> cases sortKey b <;> cases sortKey c <;> simp <;> omega

/-- Python's `sorted` is a stable sort; insertion sort with a total
transitive `≤`-style relation computes exactly the stable sort. -/
def sortTourists (ts : List TouristRequest) : List TouristRequest :=
  List.insertionSort tourLE ts

/-- `_build_schedule` (tools.py lines 485-563). -/
def buildSchedule (tourist_requests : List TouristRequest)
    (guide_offers : List GuideOffer) : List Assignment :=
  buildLoop guide_offers (sortTourists tourist_requests) (initCap guide_offers)

/-! ### Coordination API (`register_tourist_request`, `register_guide_offer`,
`run_scheduling`) -/

/-- Status tag of a registration result. -/
inductive RegStatus where
  | registered
  | error
deriving DecidableEq

/-- Structured result of a registration call: the tag plus, on success,
the `queue_position` (tourists) or `total_guides` (guides) count. -/
structure RegResult where
  status : RegStatus
  position : Option Nat
deriving DecidableEq

/-- Drop the first element satisfying `p`, keep everything else in
order: the effect of `next((x for x in l if p x), None)` followed by
`l.remove(existing)`. -/
def removeFirst (p : α → Bool) : List α → List α
  | [] => []
  | x :: xs => if p x then xs else x :: removeFirst p xs

/-- Duplicate removal of `register_tourist_request` (tools.py lines
201-206), keyed on `tourist_id`. -/
def removeFirstTourist (l : List TouristRequest) (id : String) : List TouristRequest :=
  removeFirst (fun t => t.tourist_id == id) l

/-- Guide analogue of the duplicate removal (tools.py lines 302-307). -/
def removeFirstGuide (l : List GuideOffer) (id : String) : List GuideOffer :=
  removeFirst (fun g => g.guide_id == id) l

/-- Modelled from the spec: the validation performed when a
`TouristRequest` is constructed lives in `src/core/models.py`, which is
not part of the sources; per the spec, registration `validates
budget >= 0 and at least one window with start < end`, and a violation
surfaces as the structured failure of the `except` branch. -/
def validTouristInput (budget : ℚ) (availability : List Window) : Bool :=
  decide (0 ≤ budget) && availability.any (fun w => decide (w.start < w.stop))

/-- Modelled from the spec: `GuideOffer` construction validation
(`hourly_rate >= 0`, `max_group_size >= 1`), in the missing
`src/core/models.py`. -/
def validGuideInput (hourly_rate : ℚ) (max_group_size : Int) : Bool :=
  decide (0 ≤ hourly_rate) && decide (1 ≤ max_group_size)

/-- `register_tourist_request` (tools.py lines 149-244): on valid input
remove any existing record with the same `tourist_id`, append the new
record, and report the queue position (registry size after insert); on
invalid input return the structured error result and leave the state
untouched. -/
def register_tourist_request (s : SchedulerState) (tourist_id : String)
    (availability_start availability_stop : Int) (preferences : List String)
    (budget : ℚ) : RegResult × SchedulerState :=
  let window : Window := ⟨availability_start, availability_stop⟩
  if validTouristInput budget [window] then
    let request : TouristRequest := ⟨tourist_id, [window], preferences, budget⟩
    let requests := removeFirstTourist s.tourist_requests tourist_id ++ [request]
    (⟨RegStatus.registered, some requests.length⟩,
      { s with tourist_requests := requests })
  else
    (⟨RegStatus.error, none⟩, s)

/-- `register_guide_offer` (tools.py lines 247-346): same upsert contract
keyed on `guide_id`. -/
def register_guide_offer (s : SchedulerState) (guide_id : String)
    (categories : List String) (available_start available_stop : Int)
    (hourly_rate : ℚ) (max_group_size : Int) : RegResult × SchedulerState :=
  if validGuideInput hourly_rate max_group_size then
    let offer : GuideOffer :=
      ⟨guide_id, categories, ⟨available_start, available_stop⟩, hourly_rate, max_group_size⟩
    let offers := removeFirstGuide s.guide_offers guide_id ++ [offer]
    (⟨RegStatus.registered, some offers.length⟩,
      { s with guide_offers := offers })
  else
    (⟨RegStatus.error, none⟩, s)

/-- Status tag of a `run_scheduling` result. -/
inductive RunStatus where
  | no_tourists
  | no_guides
  | completed
  | error
deriving DecidableEq

/-- Structured result of `run_scheduling`. -/
structure RunResult where
  status : RunStatus
  assignments : List Assignment
deriving DecidableEq

/-- `run_scheduling` (tools.py lines 349-440): early exits on an empty
registry leave the state untouched; a completed run stores the freshly
built assignment list as the entire ledger. -/
def run_scheduling (s : SchedulerState) : RunResult × SchedulerState :=
  if s.tourist_requests = [] then
    (⟨RunStatus.no_tourists, []⟩, s)
  else if s.guide_offers = [] then
    (⟨RunStatus.no_guides, []⟩, s)
  else
    let as := buildSchedule s.tourist_requests s.guide_offers
    (⟨RunStatus.completed, as⟩, { s with assignments := as })

/-! ### Spec-side reference definitions (for refinement claims) -/

/-- The three eligibility tests of the inner scan, as one predicate:
remaining capacity, affordability against the hourly rate, and a
positive-duration overlap. -/
def eligibleb (t : TouristRequest) (cap : String → Int) (g : GuideOffer) : Bool :=
  !(decide (cap g.guide_id ≤ 0)) && !(decide (t.budget < g.hourly_rate)) &&
    (overlapWindow t.availability g.available_window).isSome

/-- Reference selection rule, written after the spec's words: pick the
guide whose score is maximal, keeping the earlier-scanned guide on ties
(a later guide wins only by a strictly greater score). -/
def firstMaxBy (f : GuideOffer → Int) : List GuideOffer → Option GuideOffer
  | [] => none
  | g :: gs =>
    match firstMaxBy f gs with
    | none => some g
    | some g' => if f g < f g' then some g' else some g

/-! ### Concrete fixtures (the worked scenario of the spec: tourist `t1`
09:00-17:00 budget 100 prefs culture/history; guide `g1` 10:00-14:00
rate 50 categories culture/history/food capacity 5; times in seconds) -/

/-- Fixture tourist `t1`. -/
def w_t1 : TouristRequest := ⟨"t1", [⟨32400, 61200⟩], ["culture", "history"], 100⟩

/-- Fixture guide `g1`. -/
def w_g1 : GuideOffer := ⟨"g1", ["culture", "history", "food"], ⟨36000, 50400⟩, 50, 5⟩

/-- Fixture tourist with a budget below `w_g1`'s rate. -/
def w_poor : TouristRequest := ⟨"t9", [⟨32400, 61200⟩], ["culture"], 10⟩

/-- Fixture state holding `w_t1`, `w_g1` and a stale ledger entry. -/
def w_state : SchedulerState :=
  ⟨[w_t1], [w_g1], [⟨"old", "old", ⟨0, 1⟩, [], 0⟩]⟩

/-! ### Lemmas about the inner guide scan -/

theorem overlapWindow_sound {ws : List Window} {gw ov : Window}
    (h : overlapWindow ws gw = some ov) :
    ∃ w ∈ ws, ov.start = max w.start gw.start ∧ ov.stop = min w.stop gw.stop ∧
      ov.start < ov.stop := by
  induction ws with
  | nil => simp [overlapWindow] at h
  | cons tw rest ih =>
    rw [overlapWindow] at h
    by_cases hlt : max tw.start gw.start < min tw.stop gw.stop
    · rw [if_pos hlt] at h
      refine ⟨tw, List.mem_cons_self .., ?_⟩
      cases h
      exact ⟨rfl, rfl, hlt⟩
    · rw [if_neg hlt] at h
      obtain ⟨w, hw, hws⟩ := ih h
      exact ⟨w, List.mem_cons_of_mem _ hw, hws⟩

theorem findBestAux_sound {t : TouristRequest} {cap : String → Int} :
    ∀ {gs : List GuideOffer} {best : Option (GuideOffer × Window)} {s : Int}
      {p : GuideOffer × Window}, findBestAux t cap gs best s = some p →
      best = some p ∨
        (p.1 ∈ gs ∧ 0 < cap p.1.guide_id ∧ p.1.hourly_rate ≤ t.budget ∧
          overlapWindow t.availability p.1.available_window = some p.2) := by
  intro gs
  induction gs with
  | nil => intro best s p h; exact Or.inl h
  | cons g gs ih =>
    intro best s p h
    rw [findBestAux] at h
    by_cases hcap : cap g.guide_id ≤ 0
    · rw [if_pos hcap] at h
      rcases ih h with h' | ⟨hm, h'⟩
      · exact Or.inl h'
      · exact Or.inr ⟨List.mem_cons_of_mem _ hm, h'⟩
    · rw [if_neg hcap] at h
      by_cases hb : t.budget < g.hourly_rate
      · rw [if_pos hb] at h
        rcases ih h with h' | ⟨hm, h'⟩
        · exact Or.inl h'
        · exact Or.inr ⟨List.mem_cons_of_mem _ hm, h'⟩
      · rw [if_neg hb] at h
        cases hov : overlapWindow t.availability g.available_window with
        | none =>
          rw [hov] at h
          rcases ih h with h' | ⟨hm, h'⟩
          · exact Or.inl h'
          · exact Or.inr ⟨List.mem_cons_of_mem _ hm, h'⟩
        | some ov =>
          rw [hov] at h
          simp only at h
          by_cases hs : s < prefScore t.preferences g.categories
          · rw [if_pos hs] at h
            rcases ih h with h' | ⟨hm, h'⟩
            · cases h'
              exact Or.inr ⟨List.mem_cons_self .., lt_of_not_le hcap, le_of_not_lt hb, hov⟩
            · exact Or.inr ⟨List.mem_cons_of_mem _ hm, h'⟩
          · rw [if_neg hs] at h
            rcases ih h with h' | ⟨hm, h'⟩
            · exact Or.inl h'
            · exact Or.inr ⟨List.mem_cons_of_mem _ hm, h'⟩

theorem findBest_sound {t : TouristRequest} {cap : String → Int}
    {gs : List GuideOffer} {p : GuideOffer × Window}
    (h : findBest t cap gs = some p) :
    p.1 ∈ gs ∧ 0 < cap p.1.guide_id ∧ p.1.hourly_rate ≤ t.budget ∧
      overlapWindow t.availability p.1.available_window = some p.2 := by
  rcases findBestAux_sound h with h' | h'
  · cases h'
  · exact h'

/-! ### Lemmas about the main loop -/

theorem buildLoop_mem {gs : List GuideOffer} :
    ∀ {ts : List TouristRequest} {cap : String → Int} {a : Assignment},
      a ∈ buildLoop gs ts cap →
      ∃ t ∈ ts, t.availability ≠ [] ∧
        ∃ cap' g ov, findBest t cap' gs = some (g, ov) ∧ a = mkAssignment t g ov := by
  intro ts
  induction ts with
  | nil => intro cap a h; simp [buildLoop] at h
  | cons t ts ih =>
    intro cap a h
    rw [buildLoop] at h
    by_cases hav : t.availability = []
    · rw [if_pos hav] at h
      obtain ⟨t', ht', h'⟩ := ih h
      exact ⟨t', List.mem_cons_of_mem _ ht', h'⟩
    · rw [if_neg hav] at h
      cases hfb : findBest t cap gs with
      | none =>
        rw [hfb] at h
        obtain ⟨t', ht', h'⟩ := ih h
        exact ⟨t', List.mem_cons_of_mem _ ht', h'⟩
      | some p =>
        rw [hfb] at h
        rcases List.mem_cons.mp h with h' | h'
        · exact ⟨t, List.mem_cons_self .., hav, cap, p.1, p.2, hfb, h'⟩
        · obtain ⟨t', ht', h''⟩ := ih h'
          exact ⟨t', List.mem_cons_of_mem _ ht', h''⟩

theorem buildLoop_countP {gs : List GuideOffer} :
    ∀ {ts : List TouristRequest} {cap : String → Int} {gid : String},
      (((buildLoop gs ts cap).countP (fun a => a.guide_id == gid) : Nat) : Int) ≤
        max (cap gid) 0 := by
  intro ts
  induction ts with
  | nil => intro cap gid; simp [buildLoop]
  | cons t ts ih =>
    intro cap gid
    rw [buildLoop]
    by_cases hav : t.availability = []
    · rw [if_pos hav]; exact ih
    · rw [if_neg hav]
      cases hfb : findBest t cap gs with
      | none => exact ih
      | some p =>
        obtain ⟨g, ov⟩ := p
        have hcap : 0 < cap g.guide_id := (findBest_sound hfb).2.1
        rw [List.countP_cons]
        by_cases hg : g.guide_id = gid
        · have hpa : ((mkAssignment t g ov).guide_id == gid) = true := by
            simp [mkAssignment, hg]
          rw [hpa]
          have hih :=
            @ih (fun gid' => if gid' = g.guide_id then cap gid' - 1 else cap gid') gid
          rw [if_pos hg.symm] at hih
          rw [hg] at hcap
          push_cast
          omega
        · have hpa : ((mkAssignment t g ov).guide_id == gid) = false := by
            simp [mkAssignment, hg]
          rw [hpa]
          have hih :=
            @ih (fun gid' => if gid' = g.guide_id then cap gid' - 1 else cap gid') gid
          rw [if_neg (fun hh => hg hh.symm)] at hih
          push_cast
          push_cast at hih
          omega

theorem foldl_capStep_nmem :
    ∀ {gs : List GuideOffer} (m : String → Int) {gid : String},
      gid ∉ gs.map GuideOffer.guide_id → gs.foldl capStep m gid = m gid := by
  intro gs
  induction gs with
  | nil => intro m gid _; rfl
  | cons g gs ih =>
    intro m gid hn
    rw [List.map_cons, List.mem_cons] at hn
    push_neg at hn
    rw [List.foldl_cons, ih _ hn.2]
    exact if_neg hn.1

theorem foldl_capStep_eq :
    ∀ {gs : List GuideOffer} (m : String → Int) {g : GuideOffer},
      (gs.map GuideOffer.guide_id).Nodup → g ∈ gs →
      gs.foldl capStep m g.guide_id = g.max_group_size := by
  intro gs
  induction gs with
  | nil => intro m g _ hmem; cases hmem
  | cons g0 gs ih =>
    intro m g hnd hmem
    rw [List.map_cons, List.nodup_cons] at hnd
    rcases List.mem_cons.mp hmem with rfl | hmem
    · rw [List.foldl_cons, foldl_capStep_nmem _ hnd.1, capStep, if_pos rfl]
    · exact ih _ hnd.2 hmem

theorem initCap_eq {gs : List GuideOffer} {g : GuideOffer}
    (hnd : (gs.map GuideOffer.guide_id).Nodup) (hmem : g ∈ gs) :
    initCap gs g.guide_id = g.max_group_size :=
  foldl_capStep_eq _ hnd hmem

/-! ### Stability of the tourist sort -/

theorem keyLEb_refl (x : Option Int) : keyLEb x x = true := by
  cases x with
  | none => rfl
  | some a => simp [keyLEb]

theorem filter_orderedInsert_key (k : Option Int) (a : TouristRequest) :
    ∀ l : List TouristRequest,
      (List.orderedInsert tourLE a l).filter (fun t => sortKey t == k) =
        if sortKey a == k then a :: l.filter (fun t => sortKey t == k)
        else l.filter (fun t => sortKey t == k) := by
  intro l
  induction l with
  | nil =>
    rw [List.orderedInsert, List.filter]
    cases h : (sortKey a == k) <;> simp [h]
  | cons b l ih =>
    rw [List.orderedInsert]
    by_cases hr : tourLE a b
    · rw [if_pos hr, List.filter_cons]
    · rw [if_neg hr, List.filter_cons]
      cases hb : (sortKey b == k) with
      | true =>
        cases ha : (sortKey a == k) with
        | true =>
          exfalso
          apply hr
          unfold tourLE
          rw [beq_iff_eq] at ha hb
          rw [ha, hb]
          exact keyLEb_refl k
        | false =>
          simp only [hb, if_true, ih, ha, if_false]
          rw [List.filter_cons, hb]
          simp
      | false =>
        simp only [hb, if_false, ih]
        rw [List.filter_cons, hb]
        simp

theorem filter_sortTourists_key (k : Option Int) :
    ∀ ts : List TouristRequest,
      (sortTourists ts).filter (fun t => sortKey t == k) =
        ts.filter (fun t => sortKey t == k) := by
  intro ts
  induction ts with
  | nil => rfl
  | cons t ts ih =>
    have hstep : sortTourists (t :: ts) = List.orderedInsert tourLE t (sortTourists ts) := rfl
    rw [hstep, filter_orderedInsert_key, ih, List.filter_cons]

/-! ### The selection rule refines the spec's first-argmax rule -/

theorem findBestAux_firstMaxBy {t : TouristRequest} {cap : String → Int} :
    ∀ (gs : List GuideOffer) (best : Option (GuideOffer × Window)) (s : Int),
      (findBestAux t cap gs best s).map Prod.fst =
        (firstMaxBy (fun g => prefScore t.preferences g.categories)
            (gs.filter (eligibleb t cap))).elim (best.map Prod.fst)
          (fun g => if s < prefScore t.preferences g.categories then some g
            else best.map Prod.fst) := by
  intro gs
  induction gs with
  | nil => intro best s; rfl
  | cons g gs ih =>
    intro best s
    rw [findBestAux, List.filter_cons]
    by_cases hcap : cap g.guide_id ≤ 0
    · have he : eligibleb t cap g = false := by simp [eligibleb, hcap]
      rw [if_pos hcap, he]
      simpa using ih best s
    · rw [if_neg hcap]
      by_cases hb : t.budget < g.hourly_rate
      · have he : eligibleb t cap g = false := by simp [eligibleb, hb]
        rw [if_pos hb, he]
        simpa using ih best s
      · rw [if_neg hb]
        cases hov : overlapWindow t.availability g.available_window with
        | none =>
          have he : eligibleb t cap g = false := by simp [eligibleb, hov]
          rw [he]
          simpa using ih best s
        | some ov =>
          have he : eligibleb t cap g = true := by simp [eligibleb, hcap, hb, hov]
          simp only [he, eq_self_iff_true, if_true]
          rw [firstMaxBy]
          cases hF : firstMaxBy (fun g => prefScore t.preferences g.categories)
              (gs.filter (eligibleb t cap)) with
          | none =>
            by_cases hs : s < prefScore t.preferences g.categories
            · rw [if_pos hs, ih (some (g, ov)) _, hF]
              simp [Option.elim, hs]
            · rw [if_neg hs, ih best s, hF]
              simp [Option.elim, hs]
          | some gm =>
            change _ = Option.elim (if prefScore t.preferences g.categories <
                prefScore t.preferences gm.categories then some gm else some g) _ _
            by_cases hgm : prefScore t.preferences g.categories <
                prefScore t.preferences gm.categories
            · rw [if_pos hgm]
              by_cases hs : s < prefScore t.preferences g.categories
              · rw [if_pos hs, ih (some (g, ov)) _, hF]
                simp only [Option.elim, Option.map_some']
                rw [if_pos hgm, if_pos (by omega)]
              · rw [if_neg hs, ih best s, hF]
            · rw [if_neg hgm]
              by_cases hs : s < prefScore t.preferences g.categories
              · rw [if_pos hs, ih (some (g, ov)) _, hF]
                simp only [Option.elim, Option.map_some']
                rw [if_neg hgm, if_pos hs]
              · rw [if_neg hs, ih best s, hF]
                simp only [Option.elim]
                rw [if_neg (by omega), if_neg hs]

theorem findBest_firstMaxBy (t : TouristRequest) (cap : String → Int)
    (gs : List GuideOffer) :
    (findBest t cap gs).map Prod.fst =
      firstMaxBy (fun g => prefScore t.preferences g.categories)
        (gs.filter (eligibleb t cap)) := by
  rw [findBest, findBestAux_firstMaxBy]
  cases hF : firstMaxBy (fun g => prefScore t.preferences g.categories)
      (gs.filter (eligibleb t cap)) with
  | none => rfl
  | some gm =>
    have hpos : (0 : Int) ≤ prefScore t.preferences gm.categories := by
      unfold prefScore; positivity
    simp only [Option.elim]
    rw [if_pos (by omega)]

/-! ### Counting lemmas for the upsert removal -/

theorem removeFirst_length {p : α → Bool} :
    ∀ {l : List α}, 0 < l.countP p → (removeFirst p l).length + 1 = l.length := by
  intro l
  induction l with
  | nil => intro h; simp at h
  | cons x xs ih =>
    intro h
    rw [removeFirst]
    by_cases hx : p x
    · rw [if_pos hx, List.length_cons]
    · rw [if_neg hx, List.length_cons, List.length_cons]
      rw [List.countP_cons, if_neg hx] at h
      rw [ih (by omega)]

theorem removeFirst_countP {p : α → Bool} :
    ∀ {l : List α}, 0 < l.countP p →
      (removeFirst p l).countP p + 1 = l.countP p := by
  intro l
  induction l with
  | nil => intro h; simp at h
  | cons x xs ih =>
    intro h
    rw [removeFirst, List.countP_cons]
    by_cases hx : p x
    · rw [if_pos hx, if_pos hx]
    · rw [if_neg hx, if_neg hx, List.countP_cons, if_neg hx]
      rw [List.countP_cons, if_neg hx] at h
      have := ih (by omega)
      omega

theorem countP_pos_of_mem {p : α → Bool} {l : List α} {x : α}
    (hx : x ∈ l) (hpx : p x = true) : 0 < l.countP p :=
  List.countP_pos.mpr ⟨x, hx, hpx⟩

/-! ### The first-argmax rule really is "maximal score, earliest on ties" -/

theorem firstMaxBy_eq_none {f : GuideOffer → Int} :
    ∀ {l : List GuideOffer}, firstMaxBy f l = none → l = [] := by
  intro l
  cases l with
  | nil => intro _; rfl
  | cons g gs =>
    intro h
    cases hF : firstMaxBy f gs with
    | none =>
      simp only [firstMaxBy, hF] at h
      cases h
    | some g' =>
      simp only [firstMaxBy, hF] at h
      split_ifs at h <;> simp at h

theorem firstMaxBy_spec {f : GuideOffer → Int} :
    ∀ {l : List GuideOffer} {g0 : GuideOffer}, firstMaxBy f l = some g0 →
      g0 ∈ l ∧ (∀ x ∈ l, f x ≤ f g0) ∧
        ∃ l1 l2, l = l1 ++ g0 :: l2 ∧ ∀ x ∈ l1, f x < f g0 := by
  intro l
  induction l with
  | nil => intro g0 h; cases h
  | cons g gs ih =>
    intro g0 h
    cases hF : firstMaxBy f gs with
    | none =>
      simp only [firstMaxBy, hF] at h
      cases h
      have hnil : gs = [] := firstMaxBy_eq_none hF
      subst hnil
      refine ⟨List.mem_cons_self .., ?_, [], [], rfl, by simp⟩
      intro x hx
      rcases List.mem_cons.mp hx with rfl | hx
      · exact le_refl _
      · cases hx
    | some g' =>
      simp only [firstMaxBy, hF] at h
      obtain ⟨hmem, hub, l1, l2, hsplit, hstrict⟩ := ih hF
      by_cases hlt : f g < f g'
      · rw [if_pos hlt] at h
        cases h
        refine ⟨List.mem_cons_of_mem _ hmem, ?_, g :: l1, l2, by rw [hsplit]; rfl, ?_⟩
        · intro x hx
          rcases List.mem_cons.mp hx with rfl | hx
          · exact le_of_lt hlt
          · exact hub x hx
        · intro x hx
          rcases List.mem_cons.mp hx with rfl | hx
          · exact hlt
          · exact hstrict x hx
      · rw [if_neg hlt] at h
        cases h
        refine ⟨List.mem_cons_self .., ?_, [], gs, rfl, by simp⟩
        intro x hx
        rcases List.mem_cons.mp hx with rfl | hx
        · exact le_refl _
        · exact le_trans (hub x hx) (le_of_not_lt hlt)

/-! ## Claim theorems -/

/-- C1: for every completed matching run over any list of tourist
requests and guide offers (with registry-unique guide identities and a
non-negative registered capacity), each `guide_id` occurs as the guide
of at most `max_group_size` assignments in the returned list. -/
theorem capacity_invariant (ts : List TouristRequest) (gs : List GuideOffer)
    (g : GuideOffer) (hnd : (gs.map GuideOffer.guide_id).Nodup) (hg : g ∈ gs)
    (hpos : 0 ≤ g.max_group_size) :
    (((buildSchedule ts gs).countP (fun a => a.guide_id == g.guide_id) : Nat) : Int) ≤
      g.max_group_size := by
  have h := @buildLoop_countP gs (sortTourists ts) (initCap gs) g.guide_id
  rw [initCap_eq hnd hg] at h
  rw [buildSchedule]
  omega

/-- Witness for C1 at the spec's worked scenario. -/
theorem capacity_invariant_witness :
    (((buildSchedule [w_t1] [w_g1]).countP (fun a => a.guide_id == w_g1.guide_id) : Nat) :
      Int) ≤ w_g1.max_group_size :=
  capacity_invariant [w_t1] [w_g1] w_g1 (by decide) (by decide) (by decide)

/-- C2: every produced assignment's `time_window` is the
max-of-starts/min-of-ends intersection of one of the assigned tourist's
availability windows with the guide's `available_window`, is contained
in both, and has strictly positive duration. -/
theorem overlap_soundness (ts : List TouristRequest) (gs : List GuideOffer)
    (a : Assignment) (ha : a ∈ buildSchedule ts gs) :
    ∃ t ∈ ts, ∃ g ∈ gs, a.tourist_id = t.tourist_id ∧ a.guide_id = g.guide_id ∧
      ∃ w ∈ t.availability,
        a.time_window.start = max w.start g.available_window.start ∧
        a.time_window.stop = min w.stop g.available_window.stop ∧
        w.start ≤ a.time_window.start ∧
        g.available_window.start ≤ a.time_window.start ∧
        a.time_window.stop ≤ w.stop ∧
        a.time_window.stop ≤ g.available_window.stop ∧
        a.time_window.start < a.time_window.stop := by
  obtain ⟨t, ht, hav, cap', g, ov, hfb, rfl⟩ := buildLoop_mem ha
  obtain ⟨hg, hcap, hrate, hov⟩ := findBest_sound hfb
  dsimp only at hg hcap hrate hov
  obtain ⟨w, hw, h1, h2, h3⟩ := overlapWindow_sound hov
  refine ⟨t, (List.perm_insertionSort tourLE ts).subset ht, g, hg, rfl, rfl, w, hw, ?_⟩
  simp only [mkAssignment]
  omega

/-- Witness for C2: the scenario assignment is in the run's output and
satisfies the soundness property. -/
theorem overlap_soundness_witness :
    ∃ t ∈ [w_t1], ∃ g ∈ [w_g1],
      (mkAssignment w_t1 w_g1 ⟨36000, 50400⟩).tourist_id = t.tourist_id ∧
      (mkAssignment w_t1 w_g1 ⟨36000, 50400⟩).guide_id = g.guide_id ∧
      ∃ w ∈ t.availability,
        (mkAssignment w_t1 w_g1 ⟨36000, 50400⟩).time_window.start =
          max w.start g.available_window.start ∧
        (mkAssignment w_t1 w_g1 ⟨36000, 50400⟩).time_window.stop =
          min w.stop g.available_window.stop ∧
        w.start ≤ (mkAssignment w_t1 w_g1 ⟨36000, 50400⟩).time_window.start ∧
        g.available_window.start ≤ (mkAssignment w_t1 w_g1 ⟨36000, 50400⟩).time_window.start ∧
        (mkAssignment w_t1 w_g1 ⟨36000, 50400⟩).time_window.stop ≤ w.stop ∧
        (mkAssignment w_t1 w_g1 ⟨36000, 50400⟩).time_window.stop ≤ g.available_window.stop ∧
        (mkAssignment w_t1 w_g1 ⟨36000, 50400⟩).time_window.start <
          (mkAssignment w_t1 w_g1 ⟨36000, 50400⟩).time_window.stop :=
  overlap_soundness [w_t1] [w_g1] (mkAssignment w_t1 w_g1 ⟨36000, 50400⟩)
    (List.mem_cons_self ..)

/-- C4: among the guides passing the capacity, budget and overlap
tests, the engine selects the one with maximal preference score, the
earliest-scanned guide on ties (a later guide wins only by a strictly
greater score): the scan refines the spec's first-argmax rule over the
eligible sublist. -/
theorem selection_first_strict_max (t : TouristRequest) (cap : String → Int)
    (gs : List GuideOffer) :
    ((findBest t cap gs).map Prod.fst =
      firstMaxBy (fun g => prefScore t.preferences g.categories)
        (gs.filter (eligibleb t cap))) ∧
    (∀ p : GuideOffer × Window, findBest t cap gs = some p →
      p.1 ∈ gs.filter (eligibleb t cap) ∧
      (∀ g' ∈ gs.filter (eligibleb t cap),
        prefScore t.preferences g'.categories ≤ prefScore t.preferences p.1.categories) ∧
      ∃ l1 l2, gs.filter (eligibleb t cap) = l1 ++ p.1 :: l2 ∧
        ∀ x ∈ l1,
          prefScore t.preferences x.categories < prefScore t.preferences p.1.categories) := by
  refine ⟨findBest_firstMaxBy t cap gs, ?_⟩
  intro p hp
  have h := findBest_firstMaxBy t cap gs
  rw [hp] at h
  exact firstMaxBy_spec h.symm

/-- Witness for C4 at the worked scenario. -/
theorem selection_first_strict_max_witness :
    w_g1 ∈ [w_g1].filter (eligibleb w_t1 (initCap [w_g1])) ∧
    (∀ g' ∈ [w_g1].filter (eligibleb w_t1 (initCap [w_g1])),
      prefScore w_t1.preferences g'.categories ≤ prefScore w_t1.preferences w_g1.categories) ∧
    ∃ l1 l2, [w_g1].filter (eligibleb w_t1 (initCap [w_g1])) = l1 ++ w_g1 :: l2 ∧
      ∀ x ∈ l1,
        prefScore w_t1.preferences x.categories < prefScore w_t1.preferences w_g1.categories :=
  (selection_first_strict_max w_t1 (initCap [w_g1]) [w_g1]).2
    (w_g1, ⟨36000, 50400⟩) (by decide)

/-- C8: the engine is a deterministic function of its two input
sequences; it processes tourists in ascending order of first window
start with ties kept in input order (stable sort), and a tourist with
no availability windows never contributes an assignment. -/
theorem determinism_order_skip :
    (∀ (ts1 ts2 : List TouristRequest) (gs1 gs2 : List GuideOffer),
      ts1 = ts2 → gs1 = gs2 → buildSchedule ts1 gs1 = buildSchedule ts2 gs2) ∧
    (∀ (ts : List TouristRequest) (gs : List GuideOffer),
      buildSchedule ts gs = buildLoop gs (sortTourists ts) (initCap gs)) ∧
    (∀ ts : List TouristRequest, List.Sorted tourLE (sortTourists ts)) ∧
    (∀ (ts : List TouristRequest) (k : Option Int),
      (sortTourists ts).filter (fun t => sortKey t == k) =
        ts.filter (fun t => sortKey t == k)) ∧
    (∀ (ts : List TouristRequest) (gs : List GuideOffer), ∀ a ∈ buildSchedule ts gs,
      ∃ t ∈ ts, a.tourist_id = t.tourist_id ∧ t.availability ≠ []) := by
  refine ⟨?_, ?_, ?_, ?_, ?_⟩
  · intro ts1 ts2 gs1 gs2 h1 h2
    rw [h1, h2]
  · intro ts gs
    rfl
  · intro ts
    exact List.sorted_insertionSort tourLE ts
  · intro ts k
    exact filter_sortTourists_key k ts
  · intro ts gs a ha
    obtain ⟨t, ht, hav, _, g, ov, hfb, rfl⟩ := buildLoop_mem ha
    exact ⟨t, (List.perm_insertionSort tourLE ts).subset ht, rfl, hav⟩

/-- Witness for C8's hypotheses at the worked scenario. -/
theorem determinism_order_skip_witness :
    buildSchedule [w_t1] [w_g1] = buildSchedule [w_t1] [w_g1] ∧
    (∃ t ∈ [w_t1], (mkAssignment w_t1 w_g1 ⟨36000, 50400⟩).tourist_id = t.tourist_id ∧
      t.availability ≠ []) :=
  ⟨determinism_order_skip.1 [w_t1] [w_t1] [w_g1] [w_g1] rfl rfl,
    determinism_order_skip.2.2.2.2 [w_t1] [w_g1]
      (mkAssignment w_t1 w_g1 ⟨36000, 50400⟩) (List.mem_cons_self ..)⟩

/-- C3: `register_tourist_request` with a negative budget or no window
with `start < end` returns the structured failure result and leaves the
registry untouched; on valid input it upserts and reports a queue
position equal to the registry size after the insert. -/
theorem register_tourist_validation (s : SchedulerState) (id : String)
    (ws we : Int) (prefs : List String) (b : ℚ) :
    ((b < 0 ∨ ¬ ws < we) →
      (register_tourist_request s id ws we prefs b).1.status = RegStatus.error ∧
      (register_tourist_request s id ws we prefs b).2 = s) ∧
    (0 ≤ b → ws < we →
      (register_tourist_request s id ws we prefs b).1.status = RegStatus.registered ∧
      (register_tourist_request s id ws we prefs b).1.position =
        some (register_tourist_request s id ws we prefs b).2.tourist_requests.length ∧
      (register_tourist_request s id ws we prefs b).2.tourist_requests =
        removeFirstTourist s.tourist_requests id ++ [⟨id, [⟨ws, we⟩], prefs, b⟩]) := by
  constructor
  · intro h
    have hv : validTouristInput b [⟨ws, we⟩] = false := by
      rcases h with h | h
      · simp [validTouristInput, not_le.mpr h]
      · simp [validTouristInput, h]
    rw [register_tourist_request, if_neg (by simp [hv])]
    exact ⟨rfl, rfl⟩
  · intro hb hw
    have hv : validTouristInput b [⟨ws, we⟩] = true := by
      simp [validTouristInput, hb, hw]
    rw [register_tourist_request, if_pos (by simp [hv])]
    exact ⟨rfl, rfl, rfl⟩

/-- Witness for C3: a negative budget is rejected without touching the
state; the scenario registration succeeds at queue position 1. -/
theorem register_tourist_validation_witness :
    ((register_tourist_request {} "t1" 32400 61200 ["culture"] (-5)).1.status =
        RegStatus.error ∧
      (register_tourist_request {} "t1" 32400 61200 ["culture"] (-5)).2 = {}) ∧
    ((register_tourist_request {} "t1" 32400 61200 ["culture"] 100).1.status =
        RegStatus.registered ∧
      (register_tourist_request {} "t1" 32400 61200 ["culture"] 100).1.position =
        some (register_tourist_request {} "t1" 32400 61200
          ["culture"] 100).2.tourist_requests.length ∧
      (register_tourist_request {} "t1" 32400 61200 ["culture"] 100).2.tourist_requests =
        removeFirstTourist [] "t1" ++
          [⟨"t1", [⟨32400, 61200⟩], ["culture"], 100⟩]) :=
  ⟨(register_tourist_validation {} "t1" 32400 61200 ["culture"] (-5)).1
      (Or.inl (by norm_num)),
    (register_tourist_validation {} "t1" 32400 61200 ["culture"] 100).2
      (by norm_num) (by norm_num)⟩

/-- C5: the affordability test compares the budget against the hourly
rate, not the projected total cost: a guide whose rate exceeds a
tourist's budget is never assigned to that tourist, and whenever the
rate is within budget the eligibility test passes irrespective of the
overlap's duration. -/
theorem budget_compares_rate :
    (∀ (ts : List TouristRequest) (gs : List GuideOffer)
      (t : TouristRequest) (g : GuideOffer), t ∈ ts → g ∈ gs →
      (ts.map TouristRequest.tourist_id).Nodup →
      (gs.map GuideOffer.guide_id).Nodup →
      t.budget < g.hourly_rate →
      ∀ a ∈ buildSchedule ts gs,
        ¬(a.tourist_id = t.tourist_id ∧ a.guide_id = g.guide_id)) ∧
    (∀ (t : TouristRequest) (cap : String → Int) (g : GuideOffer),
      0 < cap g.guide_id → g.hourly_rate ≤ t.budget →
      (overlapWindow t.availability g.available_window).isSome = true →
      eligibleb t cap g = true) := by
  constructor
  · intro ts gs t g ht hg hndt hndg hb a ha
    rintro ⟨hat, hag⟩
    obtain ⟨t', ht', hav, cap', g', ov, hfb, rfl⟩ := buildLoop_mem ha
    have ht'' : t' ∈ ts := (List.perm_insertionSort tourLE ts).subset ht'
    obtain ⟨hg', hcap, hrate, hov⟩ := findBest_sound hfb
    dsimp only at hg' hcap hrate hov
    have heqt : t' = t := List.inj_on_of_nodup_map hndt ht'' ht hat
    have heqg : g' = g := List.inj_on_of_nodup_map hndg hg' hg hag
    rw [heqt, heqg] at hrate
    exact absurd hrate (not_le.mpr hb)
  · intro t cap g h1 h2 h3
    simp only [eligibleb, Bool.and_eq_true, Bool.not_eq_true', decide_eq_false_iff_not]
    exact ⟨⟨not_le.mpr h1, not_lt.mpr h2⟩, h3⟩

/-- Witness for C5: the over-priced guide is never matched to the poor
tourist, while the affordable pairing passes the eligibility test. -/
theorem budget_compares_rate_witness :
    (∀ a ∈ buildSchedule [w_poor] [w_g1],
      ¬(a.tourist_id = w_poor.tourist_id ∧ a.guide_id = w_g1.guide_id)) ∧
    eligibleb w_t1 (initCap [w_g1]) w_g1 = true :=
  ⟨budget_compares_rate.1 [w_poor] [w_g1] w_poor w_g1 (by decide) (by decide)
      (by decide) (by decide) (by decide),
    budget_compares_rate.2 w_t1 (initCap [w_g1]) w_g1 (by decide) (by decide) (by decide)⟩

/-- C6: `run_scheduling` on an empty tourist registry reports
`no_tourists` with an empty assignment list and an unchanged state;
with tourists but no guides it reports `no_guides` likewise; neither
outcome is the error status. -/
theorem run_scheduling_empty_registries (s : SchedulerState) :
    (s.tourist_requests = [] →
      (run_scheduling s).1.status = RunStatus.no_tourists ∧
      (run_scheduling s).1.assignments = [] ∧
      (run_scheduling s).2 = s ∧
      (run_scheduling s).1.status ≠ RunStatus.error) ∧
    (s.tourist_requests ≠ [] → s.guide_offers = [] →
      (run_scheduling s).1.status = RunStatus.no_guides ∧
      (run_scheduling s).1.assignments = [] ∧
      (run_scheduling s).2 = s ∧
      (run_scheduling s).1.status ≠ RunStatus.error) := by
  constructor
  · intro h
    rw [run_scheduling, if_pos h]
    exact ⟨rfl, rfl, rfl, by simp⟩
  · intro h1 h2
    rw [run_scheduling, if_neg h1, if_pos h2]
    exact ⟨rfl, rfl, rfl, by simp⟩

/-- Witness for C6 on the empty state and on a tourists-only state. -/
theorem run_scheduling_empty_registries_witness :
    ((run_scheduling {}).1.status = RunStatus.no_tourists ∧
      (run_scheduling {}).1.assignments = [] ∧
      (run_scheduling {}).2 = {} ∧
      (run_scheduling {}).1.status ≠ RunStatus.error) ∧
    ((run_scheduling ⟨[w_t1], [], []⟩).1.status = RunStatus.no_guides ∧
      (run_scheduling ⟨[w_t1], [], []⟩).1.assignments = [] ∧
      (run_scheduling ⟨[w_t1], [], []⟩).2 = ⟨[w_t1], [], []⟩ ∧
      (run_scheduling ⟨[w_t1], [], []⟩).1.status ≠ RunStatus.error) :=
  ⟨(run_scheduling_empty_registries {}).1 rfl,
    (run_scheduling_empty_registries ⟨[w_t1], [], []⟩).2 (by simp) rfl⟩

/-- C7: registration is upsert-by-identity: re-registering an existing
`tourist_id` (resp. `guide_id`) leaves exactly one record with that
identity, that record is the latest registration in full, and the
registry size is unchanged. -/
theorem upsert_identity :
    (∀ (s : SchedulerState) (id : String) (ws we : Int) (prefs : List String) (b : ℚ),
      s.tourist_requests.countP (fun t => t.tourist_id == id) = 1 →
      0 ≤ b → ws < we →
      (register_tourist_request s id ws we prefs b).2.tourist_requests.countP
          (fun t => t.tourist_id == id) = 1 ∧
      (∀ r ∈ (register_tourist_request s id ws we prefs b).2.tourist_requests,
        r.tourist_id = id → r = ⟨id, [⟨ws, we⟩], prefs, b⟩) ∧
      (register_tourist_request s id ws we prefs b).2.tourist_requests.length =
        s.tourist_requests.length) ∧
    (∀ (s : SchedulerState) (id : String) (cats : List String) (ws we : Int)
      (hr : ℚ) (mgs : Int),
      s.guide_offers.countP (fun g => g.guide_id == id) = 1 →
      0 ≤ hr → 1 ≤ mgs →
      (register_guide_offer s id cats ws we hr mgs).2.guide_offers.countP
          (fun g => g.guide_id == id) = 1 ∧
      (∀ r ∈ (register_guide_offer s id cats ws we hr mgs).2.guide_offers,
        r.guide_id = id → r = ⟨id, cats, ⟨ws, we⟩, hr, mgs⟩) ∧
      (register_guide_offer s id cats ws we hr mgs).2.guide_offers.length =
        s.guide_offers.length) := by
  constructor
  · intro s id ws we prefs b hcount hb hw
    have hv : validTouristInput b [⟨ws, we⟩] = true := by
      simp [validTouristInput, hb, hw]
    have hreg : (register_tourist_request s id ws we prefs b).2.tourist_requests =
        removeFirstTourist s.tourist_requests id ++ [⟨id, [⟨ws, we⟩], prefs, b⟩] := by
      rw [register_tourist_request, if_pos (by simp [hv])]
    have h0 : 0 < s.tourist_requests.countP (fun t => t.tourist_id == id) := by omega
    have h1 := removeFirst_countP h0
    have h2 := removeFirst_length h0
    refine ⟨?_, ?_, ?_⟩
    · rw [hreg, List.countP_append]
      simp only [removeFirstTourist] at *
      simp only [List.countP_cons, List.countP_nil, beq_self_eq_true, if_pos]
      omega
    · intro r hr hrid
      rw [hreg] at hr
      rcases List.mem_append.mp hr with hr | hr
      · exfalso
        have czero : (removeFirstTourist s.tourist_requests id).countP
            (fun t => t.tourist_id == id) = 0 := by
          simp only [removeFirstTourist] at *
          omega
        exact List.countP_eq_zero.mp czero r hr (by simp [hrid])
      · exact List.mem_singleton.mp hr
    · rw [hreg, List.length_append]
      simp only [removeFirstTourist] at *
      simp only [List.length_cons, List.length_nil]
      omega
  · intro s id cats ws we hr mgs hcount hr0 hmgs
    have hv : validGuideInput hr mgs = true := by
      simp [validGuideInput, hr0, hmgs]
    have hreg : (register_guide_offer s id cats ws we hr mgs).2.guide_offers =
        removeFirstGuide s.guide_offers id ++ [⟨id, cats, ⟨ws, we⟩, hr, mgs⟩] := by
      rw [register_guide_offer, if_pos (by simp [hv])]
    have h0 : 0 < s.guide_offers.countP (fun g => g.guide_id == id) := by omega
    have h1 := removeFirst_countP h0
    have h2 := removeFirst_length h0
    refine ⟨?_, ?_, ?_⟩
    · rw [hreg, List.countP_append]
      simp only [removeFirstGuide] at *
      simp only [List.countP_cons, List.countP_nil, beq_self_eq_true, if_pos]
      omega
    · intro r hrm hrid
      rw [hreg] at hrm
      rcases List.mem_append.mp hrm with hrm | hrm
      · exfalso
        have czero : (removeFirstGuide s.guide_offers id).countP
            (fun g => g.guide_id == id) = 0 := by
          simp only [removeFirstGuide] at *
          omega
        exact List.countP_eq_zero.mp czero r hrm (by simp [hrid])
      · exact List.mem_singleton.mp hrm
    · rw [hreg, List.length_append]
      simp only [removeFirstGuide] at *
      simp only [List.length_cons, List.length_nil]
      omega

/-- Witness for C7: re-registering `t1` and `g1` on the fixture state. -/
theorem upsert_identity_witness :
    ((register_tourist_request w_state "t1" 0 3600 ["food"] 25).2.tourist_requests.countP
        (fun t => t.tourist_id == "t1") = 1 ∧
      (∀ r ∈ (register_tourist_request w_state "t1" 0 3600 ["food"] 25).2.tourist_requests,
        r.tourist_id = "t1" → r = ⟨"t1", [⟨0, 3600⟩], ["food"], 25⟩) ∧
      (register_tourist_request w_state "t1" 0 3600 ["food"] 25).2.tourist_requests.length =
        w_state.tourist_requests.length) ∧
    ((register_guide_offer w_state "g1" ["art"] 0 3600 75 2).2.guide_offers.countP
        (fun g => g.guide_id == "g1") = 1 ∧
      (∀ r ∈ (register_guide_offer w_state "g1" ["art"] 0 3600 75 2).2.guide_offers,
        r.guide_id = "g1" → r = ⟨"g1", ["art"], ⟨0, 3600⟩, 75, 2⟩) ∧
      (register_guide_offer w_state "g1" ["art"] 0 3600 75 2).2.guide_offers.length =
        w_state.guide_offers.length) :=
  ⟨upsert_identity.1 w_state "t1" 0 3600 ["food"] 25 (by decide) (by decide) (by decide),
    upsert_identity.2 w_state "g1" ["art"] 0 3600 75 2 (by decide) (by decide) (by decide)⟩

/-- C9: a completed `run_scheduling` leaves both registries
element-for-element unchanged and replaces the ledger with exactly the
newly built assignment sequence. -/
theorem run_scheduling_frame (s : SchedulerState)
    (h1 : s.tourist_requests ≠ []) (h2 : s.guide_offers ≠ []) :
    (run_scheduling s).2.tourist_requests = s.tourist_requests ∧
    (run_scheduling s).2.guide_offers = s.guide_offers ∧
    (run_scheduling s).2.assignments =
      buildSchedule s.tourist_requests s.guide_offers ∧
    (run_scheduling s).1.status = RunStatus.completed ∧
    (run_scheduling s).1.assignments =
      buildSchedule s.tourist_requests s.guide_offers := by
  rw [run_scheduling, if_neg h1, if_neg h2]
  exact ⟨rfl, rfl, rfl, rfl, rfl⟩

/-- Witness for C9 on the fixture state, whose stale ledger entry is
discarded by the run. -/
theorem run_scheduling_frame_witness :
    (run_scheduling w_state).2.tourist_requests = w_state.tourist_requests ∧
    (run_scheduling w_state).2.guide_offers = w_state.guide_offers ∧
    (run_scheduling w_state).2.assignments =
      buildSchedule w_state.tourist_requests w_state.guide_offers ∧
    (run_scheduling w_state).1.status = RunStatus.completed ∧
    (run_scheduling w_state).1.assignments =
      buildSchedule w_state.tourist_requests w_state.guide_offers :=
  run_scheduling_frame w_state (by simp [w_state]) (by simp [w_state])

/-- C10: re-registering an existing identity removes the old record and
appends the replacement at the end of its registry, so the record now
sits in the last position scanned by the engine. -/
theorem upsert_appends_last :
    (∀ (s : SchedulerState) (id : String) (ws we : Int) (prefs : List String) (b : ℚ),
      (∃ t ∈ s.tourist_requests, t.tourist_id = id) → 0 ≤ b → ws < we →
      (register_tourist_request s id ws we prefs b).2.tourist_requests =
        removeFirstTourist s.tourist_requests id ++ [⟨id, [⟨ws, we⟩], prefs, b⟩] ∧
      (register_tourist_request s id ws we prefs b).2.tourist_requests.getLast? =
        some ⟨id, [⟨ws, we⟩], prefs, b⟩) ∧
    (∀ (s : SchedulerState) (id : String) (cats : List String) (ws we : Int)
      (hr : ℚ) (mgs : Int),
      (∃ g ∈ s.guide_offers, g.guide_id = id) → 0 ≤ hr → 1 ≤ mgs →
      (register_guide_offer s id cats ws we hr mgs).2.guide_offers =
        removeFirstGuide s.guide_offers id ++ [⟨id, cats, ⟨ws, we⟩, hr, mgs⟩] ∧
      (register_guide_offer s id cats ws we hr mgs).2.guide_offers.getLast? =
        some ⟨id, cats, ⟨ws, we⟩, hr, mgs⟩) := by
  constructor
  · intro s id ws we prefs b _ hb hw
    have hv : validTouristInput b [⟨ws, we⟩] = true := by
      simp [validTouristInput, hb, hw]
    have hreg : (register_tourist_request s id ws we prefs b).2.tourist_requests =
        removeFirstTourist s.tourist_requests id ++ [⟨id, [⟨ws, we⟩], prefs, b⟩] := by
      rw [register_tourist_request, if_pos (by simp [hv])]
    exact ⟨hreg, by rw [hreg, List.getLast?_concat]⟩
  · intro s id cats ws we hr mgs _ hr0 hmgs
    have hv : validGuideInput hr mgs = true := by
      simp [validGuideInput, hr0, hmgs]
    have hreg : (register_guide_offer s id cats ws we hr mgs).2.guide_offers =
        removeFirstGuide s.guide_offers id ++ [⟨id, cats, ⟨ws, we⟩, hr, mgs⟩] := by
      rw [register_guide_offer, if_pos (by simp [hv])]
    exact ⟨hreg, by rw [hreg, List.getLast?_concat]⟩

/-- Witness for C10: re-registering `t1` and `g1` on the fixture state
lands each replacement record in last position. -/
theorem upsert_appends_last_witness :
    ((register_tourist_request w_state "t1" 0 3600 ["food"] 25).2.tourist_requests =
        removeFirstTourist w_state.tourist_requests "t1" ++
          [⟨"t1", [⟨0, 3600⟩], ["food"], 25⟩] ∧
      (register_tourist_request w_state "t1" 0 3600
          ["food"] 25).2.tourist_requests.getLast? =
        some ⟨"t1", [⟨0, 3600⟩], ["food"], 25⟩) ∧
    ((register_guide_offer w_state "g1" ["art"] 0 3600 75 2).2.guide_offers =
        removeFirstGuide w_state.guide_offers "g1" ++
          [⟨"g1", ["art"], ⟨0, 3600⟩, 75, 2⟩] ∧
      (register_guide_offer w_state "g1" ["art"] 0 3600 75 2).2.guide_offers.getLast? =
        some ⟨"g1", ["art"], ⟨0, 3600⟩, 75, 2⟩) :=
  ⟨upsert_appends_last.1 w_state "t1" 0 3600 ["food"] 25
      ⟨w_t1, by decide, by decide⟩ (by decide) (by decide),
    upsert_appends_last.2 w_state "g1" ["art"] 0 3600 75 2
      ⟨w_g1, by decide, by decide⟩ (by decide) (by decide)⟩

end TouristScheduling
